import Mathlib

/-!
Verification of the EPICS scheme adapter of Taurus
(`lib/taurus/core/epics/epicsfactory.py`).

Model names are embedded as `List Char`.  The name grammar is the Python
regular expression

  `^(?P<scheme>epics)://(?P<epicsname>((?P<devname>[^?#]+)(?P<base_sep>:))?(?P<attrname>[^?#:]+)?)`

matched with `re.match`, i.e. anchored at the start of the string only:
the pattern matches a prefix of the input.  Everything after `epics://`
is optional, so a match exists exactly when `epics://` begins the input.
The greedy, backtracking capture of `devname` (`[^?#]+` followed by the
literal `:`) takes the longest `[^?#]` prefix of the remainder that is
immediately followed by `:`; since `:` itself belongs to `[^?#]`, this
means: split the maximal `[^?#]` run at its last colon, provided that
colon is not the first character of the run.
-/

/-- Character list of a string literal. -/
def chars (s : String) : List Char := s.data

/-- The literal `epics://` that the anchored pattern must consume first. -/
def schemeHead : List Char := chars "epics://"

/-- Membership in the character class `[^?#]` (the `devname` group). -/
def devChar (c : Char) : Bool := !(c == '?' || c == '#')

/-- Membership in the character class `[^?#:]` (the `attrname` group). -/
def attrChar (c : Char) : Bool := !(c == '?' || c == '#' || c == ':')

/-- `beginsWith p l` holds when `p` is an initial segment of `l`. -/
def beginsWith : List Char → List Char → Bool
  | [], _ => true
  | _ :: _, [] => false
  | p :: ps, c :: cs => p == c && beginsWith ps cs

/-- Splits a list at its last colon: `some (b, a)` with `l = b ++ ':' :: a`
and `a` colon-free, or `none` when `l` has no colon. -/
def splitLastColon : List Char → Option (List Char × List Char)
  | [] => none
  | c :: rest =>
    match splitLastColon rest with
    | some (b, a) => some (c :: b, a)
    | none => if c == ':' then some ([], rest) else none

/-- The captures of a successful match of the EPICS name pattern:
group 2 (`epicsname`, always captured, possibly empty), group 4
(`devname`), group 5 (`base_sep`) and group 6 (`attrname`).  An `Option`
is `none` when the group did not participate in the match. -/
structure EpicsNameMatch where
  epicsname : List Char
  devname : Option (List Char)
  base_sep : Option (List Char)
  attrname : Option (List Char)
deriving DecidableEq

/-- Matches `((?P<devname>[^?#]+)(?P<base_sep>:))?(?P<attrname>[^?#:]+)?`
against the remainder of the input after `epics://`, following the regex
engine's greedy backtracking: `devname` is the longest non-empty `[^?#]`
prefix followed immediately by a `:`, i.e. the maximal `[^?#]` run cut at
its last colon; `attrname` then takes the rest of the run (which is
colon-free).  When the run's only colon is its first character neither
group can match and all optional groups stay empty. -/
def matchGroups (rest : List Char) : EpicsNameMatch :=
  let run := rest.takeWhile devChar
  match splitLastColon run with
  | some (dev, after) =>
    if dev.isEmpty then
      { epicsname := [], devname := none, base_sep := none, attrname := none }
    else
      { epicsname := dev ++ ':' :: after
        devname := some dev
        base_sep := some [':']
        attrname := if after.isEmpty then none else some after }
  | none =>
    { epicsname := run, devname := none, base_sep := none
      attrname := if run.isEmpty then none else some run }

/-- `AbstractEpicsNameValidator.name_re.match s`: `re.match` is anchored
at the start only, so it succeeds exactly when `epics://` begins `s`,
and the optional groups are captured from the remainder. -/
def nameMatch (s : List Char) : Option EpicsNameMatch :=
  if beginsWith schemeHead s then some (matchGroups (s.drop 8)) else none

/-- `AbstractEpicsNameValidator.isValid`: truthiness of `m is not None`.
`EpicsConfigurationNameValidator` is `pass`, so it inherits this. -/
def baseIsValid (s : List Char) : Bool := (nameMatch s).isSome

/-- `EpicsAttributeNameValidator.isValid` returns
`m is not None and m.group('attrname')`: truthy exactly when a match
exists and the `attrname` group participated (a captured `attrname` is
non-empty because of the `+`). -/
def attributeIsValid (s : List Char) : Bool :=
  match nameMatch s with
  | none => false
  | some m => m.attrname.isSome

/-- `EpicsDeviceNameValidator.isValid` returns
`m is not None and not m.group('attrname')`. -/
def deviceIsValid (s : List Char) : Bool :=
  match nameMatch s with
  | none => false
  | some m => m.attrname.isNone

/-- `EpicsFactory.DEFAULT_DEVICE`. -/
def DEFAULT_DEVICE : List Char := chars "_DefaultEpicsDevice"

/-- Python `'%s' % g` where `g` is a captured group or `None`: `None` is
rendered as the four characters `None`. -/
def formatGroup (g : Option (List Char)) : List Char :=
  match g with
  | some l => l
  | none => chars "None"

/-- Python `g or DEFAULT_DEVICE` on the `devname` group: `or` selects the
default when the group is `None` (or an empty string). -/
def devnameOrDefault (g : Option (List Char)) : List Char :=
  match g with
  | some d => if d.isEmpty then DEFAULT_DEVICE else d
  | none => DEFAULT_DEVICE

/-- Body of `AbstractEpicsNameValidator.getDeviceName` applied to the
match object: `'epics://%s%s' % (devname or DEFAULT_DEVICE, m.group('base_sep'))`. -/
def getDeviceNameOfMatch (m : EpicsNameMatch) : List Char :=
  schemeHead ++ devnameOrDefault m.devname ++ formatGroup m.base_sep

/-- `AbstractEpicsNameValidator.getDeviceName`: `None` when the pattern
does not match. -/
def getDeviceName (s : List Char) : Option (List Char) :=
  match nameMatch s with
  | none => none
  | some m => some (getDeviceNameOfMatch m)

/-- `EpicsAttributeNameValidator.getNames`: `(fullname, normal_name,
attr_name)` with `normal_name = m.group('epicsname')`,
`fullname = "%s://%s" % (m.group('scheme'), normal_name)` (the scheme
group is always `epics`), and `attr_name = m.group('attrname')` (which
may be `None`). -/
def attributeGetNames (s : List Char) :
    Option (List Char × List Char × Option (List Char)) :=
  match nameMatch s with
  | none => none
  | some m => some (schemeHead ++ m.epicsname, m.epicsname, m.attrname)

/-- `EpicsDeviceNameValidator.getNames`: `(full_name, normal_name,
devname)` with `full_name = self.getDeviceName(s)`,
`normal_name = m.group('epicsname')` and `devname = m.group('devname')`
(which may be `None`). -/
def deviceGetNames (s : List Char) :
    Option (List Char × List Char × Option (List Char)) :=
  match nameMatch s with
  | none => none
  | some m => some (getDeviceNameOfMatch m, m.epicsname, m.devname)

example : attributeGetNames (chars "epics://foo:bar:baz") =
    some (chars "epics://foo:bar:baz", chars "foo:bar:baz", some (chars "baz")) := by
  decide

example : deviceGetNames (chars "epics://foo:bar:") =
    some (chars "epics://foo:bar:", chars "foo:bar:", some (chars "foo:bar")) := by
  decide

example : attributeGetNames (chars "epics://a?x") =
    some (chars "epics://a", chars "a", some (chars "a")) := by decide

example : deviceGetNames (chars "epics://") =
    some (chars "epics://_DefaultEpicsDeviceNone", [], none) := by decide

example : nameMatch (chars "foo") = none := by decide

/-- Modelled from the spec: the grammar `epics://[device:]attribute` read
as describing the whole string (spec section 6), with `device` drawn from
`[^?#]+` (cut at its last colon) and `attribute` from `[^?#:]+`.  Used to
compare the spec's notion of a well-formed attribute URI with the code's
prefix-only matching. -/
def specAttributeForm (s : List Char) : Bool :=
  beginsWith schemeHead s &&
    (let rest := s.drop 8
     rest.all devChar &&
       match splitLastColon rest with
       | some (d, a) => !d.isEmpty && !a.isEmpty
       | none => !rest.isEmpty)

/-- Modelled from the spec: the grammar `epics://device:` of a device
model name read as describing the whole string (the device part followed
by the trailing base separator and nothing else). -/
def specDeviceForm (s : List Char) : Bool :=
  beginsWith schemeHead s &&
    (let rest := s.drop 8
     rest.all devChar &&
       match splitLastColon rest with
       | some (d, a) => !d.isEmpty && a.isEmpty
       | none => false)

example : specAttributeForm (chars "epics://foo:bar:baz") = true := by decide
example : specDeviceForm (chars "epics://foo:bar:") = true := by decide
example : specAttributeForm (chars "epics://a?x") = false := by decide

/-- The `TaurusException` raised by the EPICS scheme, carrying its message. -/
structure TaurusException where
  msg : List Char
deriving DecidableEq

/-- The slice of a `taurus.core.TaurusAttrValue` that the EPICS stub
touches: the stored payload (its Python type is immaterial here) and the
`config.writable` flag set in the constructor. -/
structure TaurusAttrValue where
  value : Int
  writable : Bool
deriving DecidableEq

/-- The state of an `EpicsAttribute` instance that its `read`/`write`
methods can observe or mutate: its model name and its stored
`self._value`. -/
structure EpicsAttributeState where
  name : List Char
  _value : TaurusAttrValue
deriving DecidableEq

/-- `EpicsAttribute.write(value, with_read)`: the body is a single
`raise TaurusException('Epics writeable attributes not supported yet')`.
The result pairs the raised exception (if any) with the attribute state
after the call. -/
def EpicsAttribute.write (a : EpicsAttributeState) (value : Int)
    (with_read : Bool) : Option TaurusException × EpicsAttributeState :=
  (some ⟨chars "Epics writeable attributes not supported yet"⟩, a)

/-- `EpicsAttribute.read(cache)`: when `cache` is false the body of the
`if not cache:` branch is `pass` (the caget forcing is a to-do), so both
branches fall through to `return self._value`.  The result pairs the
returned value with the attribute state after the call. -/
def EpicsAttribute.read (a : EpicsAttributeState) (cache : Bool) :
    TaurusAttrValue × EpicsAttributeState :=
  (a._value, a)

/-- A registered proxy object (an `EpicsDevice`, `EpicsAttribute` or
`EpicsConfiguration` instance): its Python object identity and its full
name (`getFullName()` returns the name the object was constructed with). -/
structure EpicsObj where
  oid : Nat
  fullname : List Char
deriving DecidableEq

/-- The mutable state of the `EpicsFactory` singleton: the three
name-to-object registries (`weakref.WeakValueDictionary` maps, embedded
as association lists), plus a counter supplying fresh object identities
for newly constructed proxies. -/
structure EpicsFactoryState where
  nextOid : Nat
  epics_devs : List (List Char × EpicsObj)
  epics_attrs : List (List Char × EpicsObj)
  epics_configs : List (List Char × EpicsObj)
deriving DecidableEq

/-- `registry.get(name)`: the association-list lookup. -/
def rlookup : List (List Char × EpicsObj) → List Char → Option EpicsObj
  | [], _ => none
  | (k, v) :: rest, n => if k = n then some v else rlookup rest n

/-- Outcome of a `_store*` callback: either the updated factory state, or
a raised `taurus.core.DoubleRegistration` together with the state at the
raise. -/
inductive StoreResult where
  | ok (state : EpicsFactoryState)
  | doubleRegistration (state : EpicsFactoryState)
deriving DecidableEq

/-- `EpicsFactory._storeDev(dev)`: looks `dev.getFullName()` up in
`epics_devs`; when an entry exists, *both* the `exists == dev` branch and
the else branch raise `DoubleRegistration` (they differ only in the debug
message), leaving the registry untouched; otherwise the device is stored
under its full name. -/
def _storeDev (s : EpicsFactoryState) (dev : EpicsObj) : StoreResult :=
  match rlookup s.epics_devs dev.fullname with
  | some exist =>
    if exist = dev then StoreResult.doubleRegistration s
    else StoreResult.doubleRegistration s
  | none =>
    StoreResult.ok { s with epics_devs := (dev.fullname, dev) :: s.epics_devs }

/-- `EpicsFactory._storeAttr(attr)`: same shape as `_storeDev`, on
`epics_attrs`. -/
def _storeAttr (s : EpicsFactoryState) (attr : EpicsObj) : StoreResult :=
  match rlookup s.epics_attrs attr.fullname with
  | some exist =>
    if exist = attr then StoreResult.doubleRegistration s
    else StoreResult.doubleRegistration s
  | none =>
    StoreResult.ok { s with epics_attrs := (attr.fullname, attr) :: s.epics_attrs }

/-- `EpicsFactory._storeConfig(fullname, config)`: same shape, on
`epics_configs`, keyed by the explicit `fullname` argument. -/
def _storeConfig (s : EpicsFactoryState) (fullname : List Char)
    (config : EpicsObj) : StoreResult :=
  match rlookup s.epics_configs fullname with
  | some exist =>
    if exist = config then StoreResult.doubleRegistration s
    else StoreResult.doubleRegistration s
  | none =>
    StoreResult.ok { s with epics_configs := (fullname, config) :: s.epics_configs }

/-- Outcome of a factory lookup: the obtained object and resulting state,
or a raised `TaurusException` / `DoubleRegistration` with the state at
the raise. -/
inductive FactoryResult where
  | ok (obj : EpicsObj) (state : EpicsFactoryState)
  | taurusError (state : EpicsFactoryState)
  | doubleRegError (state : EpicsFactoryState)
deriving DecidableEq

/-- `EpicsFactory.getDevice(dev_name)`: first tries the registry with the
given name, then with the full name from the device validator's
`getNames` (raising `TaurusException` when that returns `None`), and
finally constructs `EpicsDevice(fullname, parent=db,
storeCallback=self._storeDev)`.  Modelled from the spec: the
`taurus.core` model constructor (outside this module) assigns the object
a fresh identity, makes `getFullName()` return the name it was given,
and invokes the store callback on the new object. -/
def getDevice (s : EpicsFactoryState) (dev_name : List Char) : FactoryResult :=
  match rlookup s.epics_devs dev_name with
  | some d => FactoryResult.ok d s
  | none =>
    match deviceGetNames dev_name with
    | none => FactoryResult.taurusError s
    | some (fullname, _, _) =>
      match rlookup s.epics_devs fullname with
      | some d => FactoryResult.ok d s
      | none =>
        let d : EpicsObj := { oid := s.nextOid, fullname := fullname }
        match _storeDev { s with nextOid := s.nextOid + 1 } d with
        | StoreResult.ok s2 => FactoryResult.ok d s2
        | StoreResult.doubleRegistration s2 => FactoryResult.doubleRegError s2

/-- `EpicsFactory.getAttribute(attr_name)`: first tries the registry with
the given name, then with the full name from the attribute validator's
`getNames` (raising `TaurusException` when that returns `None`); when
absent it obtains the parent device via
`self.getDevice(validator.getDeviceName(attr_name))` and constructs
`EpicsAttribute(fullname, parent=dev, storeCallback=self._storeAttr)`.
The `getDeviceName = none` arm is unreachable here because
`attributeGetNames` succeeded on the same string.  The constructor
behaviour is modelled from the spec as in `getDevice`. -/
def getAttribute (s : EpicsFactoryState) (attr_name : List Char) : FactoryResult :=
  match rlookup s.epics_attrs attr_name with
  | some a => FactoryResult.ok a s
  | none =>
    match attributeGetNames attr_name with
    | none => FactoryResult.taurusError s
    | some (fullname, _, _) =>
      match rlookup s.epics_attrs fullname with
      | some a => FactoryResult.ok a s
      | none =>
        match getDeviceName attr_name with
        | none => FactoryResult.taurusError s
        | some devn =>
          match getDevice s devn with
          | FactoryResult.taurusError s2 => FactoryResult.taurusError s2
          | FactoryResult.doubleRegError s2 => FactoryResult.doubleRegError s2
          | FactoryResult.ok _ s2 =>
            let a : EpicsObj := { oid := s2.nextOid, fullname := fullname }
            match _storeAttr { s2 with nextOid := s2.nextOid + 1 } a with
            | StoreResult.ok s3 => FactoryResult.ok a s3
            | StoreResult.doubleRegistration s3 => FactoryResult.doubleRegError s3

/-- The classes `EpicsFactory.findObjectClass` can return. -/
inductive EpicsClass where
  | configuration
  | device
  | attribute
deriving DecidableEq

/-- `EpicsFactory.findObjectClass(absolute_name)`.  Modelled from the
spec: the `taurus.core` model classes' `isValid` classmethod (outside
this module) delegates to `cls.getNameValidator().isValid`;
`EpicsConfigurationNameValidator` is `pass` and therefore inherits the
unrestricted `AbstractEpicsNameValidator.isValid`. -/
def findObjectClass (absolute_name : List Char) : Option EpicsClass :=
  if baseIsValid absolute_name then some EpicsClass.configuration
  else if deviceIsValid absolute_name then some EpicsClass.device
  else if attributeIsValid absolute_name then some EpicsClass.attribute
  else none

/-- States reachable by the factory: every registered device or attribute
is keyed by a full name produced by `getNames`, which always begins with
`epics://`. -/
def wellFormed (s : EpicsFactoryState) : Bool :=
  s.epics_devs.all (fun p => beginsWith schemeHead p.1) &&
    s.epics_attrs.all (fun p => beginsWith schemeHead p.1)

example :
    getAttribute ⟨0, [], [], []⟩ (chars "epics://foo:bar:baz") =
      FactoryResult.ok ⟨1, chars "epics://foo:bar:baz"⟩
        ⟨2, [(chars "epics://foo:bar:", ⟨0, chars "epics://foo:bar:"⟩)],
            [(chars "epics://foo:bar:baz", ⟨1, chars "epics://foo:bar:baz"⟩)], []⟩ := by
  decide

/-! Helper lemmas. -/

lemma beginsWith_append (p : List Char) :
    ∀ l : List Char, beginsWith p l = true → l = p ++ l.drop p.length := by
  induction p with
  | nil => intro l _; simp
  | cons c cs ih =>
    intro l h
    cases l with
    | nil => simp [beginsWith] at h
    | cons d ds =>
      simp only [beginsWith, Bool.and_eq_true, beq_iff_eq] at h
      obtain ⟨rfl, h2⟩ := h
      simpa using ih ds h2

lemma splitLastColon_append :
    ∀ l b a : List Char, splitLastColon l = some (b, a) → l = b ++ ':' :: a := by
  intro l
  induction l with
  | nil => intro b a h; simp [splitLastColon] at h
  | cons c rest ih =>
    intro b a h
    simp only [splitLastColon] at h
    cases hr : splitLastColon rest with
    | some pair =>
      obtain ⟨b', a'⟩ := pair
      rw [hr] at h
      simp only [Option.some.injEq, Prod.mk.injEq] at h
      obtain ⟨rfl, rfl⟩ := h
      simpa using ih b' a' hr
    | none =>
      rw [hr] at h
      by_cases hc : c = ':'
      · simp only [hc, beq_self_eq_true, if_pos, Option.some.injEq,
          Prod.mk.injEq] at h
        obtain ⟨rfl, rfl⟩ := h
        simp [hc]
      · simp [hc] at h

lemma takeWhile_of_all (l : List Char) (p : Char → Bool)
    (h : l.all p = true) : l.takeWhile p = l :=
  List.takeWhile_eq_self_iff.mpr (by simpa [List.all_eq_true] using h)

lemma begins_of_nameMatch (s : List Char) (m : EpicsNameMatch)
    (h : nameMatch s = some m) : beginsWith schemeHead s = true := by
  unfold nameMatch at h
  by_cases hb : beginsWith schemeHead s = true
  · exact hb
  · simp [hb] at h

lemma nameMatch_of_begins (s : List Char) (h : beginsWith schemeHead s = true) :
    nameMatch s = some (matchGroups (s.drop 8)) := by
  simp [nameMatch, h]

lemma schemeHead_length : schemeHead.length = 8 := rfl

/-- When the remainder is entirely `[^?#]` and an attribute name was
captured, the `epicsname` group is the whole remainder. -/
lemma epicsname_of_attrname (rest : List Char) (hall : rest.all devChar = true)
    (h : (matchGroups rest).attrname.isSome = true) :
    (matchGroups rest).epicsname = rest := by
  have hrun : rest.takeWhile devChar = rest := takeWhile_of_all rest devChar hall
  cases hs : splitLastColon rest with
  | none => simp [matchGroups, hrun, hs]
  | some pair =>
    obtain ⟨dev, after⟩ := pair
    by_cases hd : dev.isEmpty
    · simp [matchGroups, hrun, hs, hd] at h
    · simp only [matchGroups, hrun, hs, hd, Bool.false_eq_true, if_false]
      exact (splitLastColon_append rest dev after hs).symm

/-- When the remainder is entirely `[^?#]`, the `devname` group was
captured and no attribute name was, `getDeviceName` rebuilds exactly
`epics://` followed by the whole remainder. -/
lemma deviceName_of_devname (rest : List Char) (hall : rest.all devChar = true)
    (hdev : (matchGroups rest).devname.isSome = true)
    (hattr : (matchGroups rest).attrname.isNone = true) :
    getDeviceNameOfMatch (matchGroups rest) = schemeHead ++ rest := by
  have hrun : rest.takeWhile devChar = rest := takeWhile_of_all rest devChar hall
  cases hs : splitLastColon rest with
  | none => simp [matchGroups, hrun, hs] at hdev
  | some pair =>
    obtain ⟨dev, after⟩ := pair
    by_cases hd : dev.isEmpty
    · simp [matchGroups, hrun, hs, hd] at hdev
    · have hre := splitLastColon_append rest dev after hs
      by_cases ha : after.isEmpty
      · have ha' : after = [] := by simpa [List.isEmpty_iff] using ha
        have hdn : (matchGroups rest).devname = some dev := by
          simp [matchGroups, hrun, hs, hd]
        have hbs : (matchGroups rest).base_sep = some [':'] := by
          simp [matchGroups, hrun, hs, hd]
        unfold getDeviceNameOfMatch
        rw [hdn, hbs]
        have hde : dev.isEmpty = false := by
          simpa using hd
        simp only [devnameOrDefault, formatGroup, hde, Bool.false_eq_true,
          if_false]
        rw [hre, ha']
        simp
      · simp [matchGroups, hrun, hs, hd, ha] at hattr

/-! Claim theorems. -/

/-- Claim C1 (amended): the round trip `getNames(s).0 = s` holds for
names in which every character after the scheme marker lies in `[^?#]`
(so that the prefix-anchored match consumes the whole string); for the
attribute validator this covers every accepted such name, and for the
device validator additionally the `devname` group must have been
captured (otherwise `getDeviceName` substitutes the default device and
renders the absent `base_sep` group as the text `None`). -/
theorem c1_round_trip (s : List Char)
    (hclean : (s.drop 8).all devChar = true) :
    (attributeIsValid s = true →
      (attributeGetNames s).map (fun t => t.1) = some s) ∧
    (deviceIsValid s = true →
      ((nameMatch s).elim false fun m => m.devname.isSome) = true →
      (deviceGetNames s).map (fun t => t.1) = some s) := by
  constructor
  · intro hv
    have hb : beginsWith schemeHead s = true := by
      unfold attributeIsValid at hv
      cases hm : nameMatch s with
      | none => rw [hm] at hv; cases hv
      | some m => exact begins_of_nameMatch s m hm
    have hnm := nameMatch_of_begins s hb
    unfold attributeIsValid at hv
    rw [hnm] at hv
    unfold attributeGetNames
    rw [hnm]
    have he := epicsname_of_attrname (s.drop 8) hclean hv
    have hsplit := beginsWith_append schemeHead s hb
    rw [schemeHead_length] at hsplit
    simp [he, hsplit.symm]
  · intro hv hdev
    have hb : beginsWith schemeHead s = true := by
      unfold deviceIsValid at hv
      cases hm : nameMatch s with
      | none => rw [hm] at hv; cases hv
      | some m => exact begins_of_nameMatch s m hm
    have hnm := nameMatch_of_begins s hb
    unfold deviceIsValid at hv
    rw [hnm] at hv
    rw [hnm] at hdev
    simp only [Option.elim] at hdev
    unfold deviceGetNames
    rw [hnm]
    have hfull := deviceName_of_devname (s.drop 8) hclean hdev hv
    have hsplit := beginsWith_append schemeHead s hb
    rw [schemeHead_length] at hsplit
    simp [hfull, hsplit.symm]

/-- Witness for C1 at `epics://foo:bar:baz` (attribute) and
`epics://foo:bar:` (device). -/
theorem c1_round_trip_witness :
    (attributeGetNames (chars "epics://foo:bar:baz")).map (fun t => t.1) =
        some (chars "epics://foo:bar:baz") ∧
    (deviceGetNames (chars "epics://foo:bar:")).map (fun t => t.1) =
        some (chars "epics://foo:bar:") :=
  ⟨(c1_round_trip (chars "epics://foo:bar:baz") (by decide)).1 (by decide),
   (c1_round_trip (chars "epics://foo:bar:") (by decide)).2 (by decide) (by decide)⟩

/-- Counterexample to C1 as stated: `epics://a?x` is accepted by the
attribute validator (the anchored match stops at `?`), yet the first
component of `getNames` is `epics://a`, not the original input. -/
theorem c1_round_trip_counterexample :
    attributeIsValid (chars "epics://a?x") = true ∧
    attributeGetNames (chars "epics://a?x") =
      some (chars "epics://a", chars "a", some (chars "a")) ∧
    chars "epics://a" ≠ chars "epics://a?x" := by
  decide

/-- Claim C2 (amended): a string that does not begin with `epics://`
(wrong scheme or missing `://`) is rejected by both validators —
`isValid` is falsy and `getNames` returns `None`.  (Trailing characters
outside the grammar do not cause rejection, because `re.match` only
anchors at the start; see the counterexample.) -/
theorem c2_reject_malformed (s : List Char)
    (h : beginsWith schemeHead s = false) :
    attributeIsValid s = false ∧ deviceIsValid s = false ∧
      attributeGetNames s = none ∧ deviceGetNames s = none := by
  have hnm : nameMatch s = none := by simp [nameMatch, h]
  refine ⟨?_, ?_, ?_, ?_⟩ <;>
    simp [attributeIsValid, deviceIsValid, attributeGetNames, deviceGetNames, hnm]

/-- Witness for C2 at the input `foo`. -/
theorem c2_reject_malformed_witness :
    attributeIsValid (chars "foo") = false ∧
      deviceIsValid (chars "foo") = false ∧
      attributeGetNames (chars "foo") = none ∧
      deviceGetNames (chars "foo") = none :=
  c2_reject_malformed (chars "foo") (by decide)

/-- Counterexample to C2 as stated: `epics://a?x` matches neither the
whole-string attribute grammar nor the device grammar, yet the attribute
validator accepts it and both validators' `getNames` return a tuple,
because the regular expression only matches a prefix. -/
theorem c2_reject_malformed_counterexample :
    specAttributeForm (chars "epics://a?x") = false ∧
    specDeviceForm (chars "epics://a?x") = false ∧
    attributeIsValid (chars "epics://a?x") = true ∧
    attributeGetNames (chars "epics://a?x") ≠ none ∧
    deviceGetNames (chars "epics://a?x") ≠ none := by
  decide

lemma storeDev_of_isSome (s : EpicsFactoryState) (obj : EpicsObj)
    (h : (rlookup s.epics_devs obj.fullname).isSome = true) :
    _storeDev s obj = StoreResult.doubleRegistration s := by
  unfold _storeDev
  cases hl : rlookup s.epics_devs obj.fullname with
  | none => rw [hl] at h; cases h
  | some e => simp [hl]

lemma storeAttr_of_isSome (s : EpicsFactoryState) (obj : EpicsObj)
    (h : (rlookup s.epics_attrs obj.fullname).isSome = true) :
    _storeAttr s obj = StoreResult.doubleRegistration s := by
  unfold _storeAttr
  cases hl : rlookup s.epics_attrs obj.fullname with
  | none => rw [hl] at h; cases h
  | some e => simp [hl]

lemma storeConfig_of_isSome (s : EpicsFactoryState) (fullname : List Char)
    (cfg : EpicsObj)
    (h : (rlookup s.epics_configs fullname).isSome = true) :
    _storeConfig s fullname cfg = StoreResult.doubleRegistration s := by
  unfold _storeConfig
  cases hl : rlookup s.epics_configs fullname with
  | none => rw [hl] at h; cases h
  | some e => simp [hl]

lemma rlookup_none_not_mem (reg : List (List Char × EpicsObj)) (k : List Char)
    (h : rlookup reg k = none) : k ∉ reg.map Prod.fst := by
  induction reg with
  | nil => simp
  | cons p rest ih =>
    obtain ⟨k2, v⟩ := p
    simp only [rlookup] at h
    by_cases he : k2 = k
    · simp [he] at h
    · rw [if_neg he] at h
      simp only [List.map_cons, List.mem_cons]
      rintro (h1 | h1)
      · exact he h1.symm
      · exact ih h h1

/-- Claim C3: each `_store*` callback checks its registry first — when
the target name is already mapped to any object the call raises
`DoubleRegistration` with the registry unchanged; a successful store
conses a fresh key onto the registry, so distinctness of the registered
names is preserved and each name is mapped to at most one object. -/
theorem c3_store_unique (s : EpicsFactoryState) (obj : EpicsObj)
    (fullname : List Char) (cfg : EpicsObj) :
    ((rlookup s.epics_devs obj.fullname).isSome = true →
      _storeDev s obj = StoreResult.doubleRegistration s) ∧
    ((rlookup s.epics_attrs obj.fullname).isSome = true →
      _storeAttr s obj = StoreResult.doubleRegistration s) ∧
    ((rlookup s.epics_configs fullname).isSome = true →
      _storeConfig s fullname cfg = StoreResult.doubleRegistration s) ∧
    (∀ s2, _storeDev s obj = StoreResult.ok s2 →
      (s.epics_devs.map Prod.fst).Nodup → (s2.epics_devs.map Prod.fst).Nodup) ∧
    (∀ s2, _storeAttr s obj = StoreResult.ok s2 →
      (s.epics_attrs.map Prod.fst).Nodup →
        (s2.epics_attrs.map Prod.fst).Nodup) ∧
    (∀ s2, _storeConfig s fullname cfg = StoreResult.ok s2 →
      (s.epics_configs.map Prod.fst).Nodup →
        (s2.epics_configs.map Prod.fst).Nodup) := by
  refine ⟨storeDev_of_isSome s obj, storeAttr_of_isSome s obj,
    storeConfig_of_isSome s fullname cfg, ?_, ?_, ?_⟩
  · intro s2 h hnd
    unfold _storeDev at h
    cases hl : rlookup s.epics_devs obj.fullname with
    | some e => simp [hl] at h
    | none =>
      rw [hl] at h
      injection h with h2
      rw [← h2]
      exact List.Nodup.cons (rlookup_none_not_mem _ _ hl) hnd
  · intro s2 h hnd
    unfold _storeAttr at h
    cases hl : rlookup s.epics_attrs obj.fullname with
    | some e => simp [hl] at h
    | none =>
      rw [hl] at h
      injection h with h2
      rw [← h2]
      exact List.Nodup.cons (rlookup_none_not_mem _ _ hl) hnd
  · intro s2 h hnd
    unfold _storeConfig at h
    cases hl : rlookup s.epics_configs fullname with
    | some e => simp [hl] at h
    | none =>
      rw [hl] at h
      injection h with h2
      rw [← h2]
      exact List.Nodup.cons (rlookup_none_not_mem _ _ hl) hnd

/-- Witness for C3 on a one-entry-per-registry factory state. -/
theorem c3_store_unique_witness :
    _storeDev ⟨5, [(chars "epics://d:", ⟨0, chars "epics://d:"⟩)], [], []⟩
        ⟨9, chars "epics://d:"⟩ =
      StoreResult.doubleRegistration
        ⟨5, [(chars "epics://d:", ⟨0, chars "epics://d:"⟩)], [], []⟩ ∧
    _storeAttr ⟨5, [], [(chars "epics://d:x", ⟨1, chars "epics://d:x"⟩)], []⟩
        ⟨9, chars "epics://d:x"⟩ =
      StoreResult.doubleRegistration
        ⟨5, [], [(chars "epics://d:x", ⟨1, chars "epics://d:x"⟩)], []⟩ ∧
    _storeConfig ⟨5, [], [], [(chars "epics://d:x?configuration",
          ⟨2, chars "epics://d:x?configuration"⟩)]⟩
        (chars "epics://d:x?configuration") ⟨9, chars "epics://c"⟩ =
      StoreResult.doubleRegistration
        ⟨5, [], [], [(chars "epics://d:x?configuration",
          ⟨2, chars "epics://d:x?configuration"⟩)]⟩ ∧
    ((⟨5, [(chars "epics://e:", ⟨9, chars "epics://e:"⟩),
           (chars "epics://d:", ⟨0, chars "epics://d:"⟩)], [], []⟩ :
        EpicsFactoryState).epics_devs.map Prod.fst).Nodup ∧
    ((⟨5, [], [(chars "epics://e:x", ⟨9, chars "epics://e:x"⟩),
               (chars "epics://d:x", ⟨1, chars "epics://d:x"⟩)], []⟩ :
        EpicsFactoryState).epics_attrs.map Prod.fst).Nodup ∧
    ((⟨5, [], [], [(chars "epics://e:x?configuration",
            ⟨9, chars "epics://e:x?configuration"⟩),
          (chars "epics://d:x?configuration",
            ⟨2, chars "epics://d:x?configuration"⟩)]⟩ :
        EpicsFactoryState).epics_configs.map Prod.fst).Nodup :=
  ⟨(c3_store_unique ⟨5, [(chars "epics://d:", ⟨0, chars "epics://d:"⟩)], [], []⟩
      ⟨9, chars "epics://d:"⟩ [] ⟨9, []⟩).1 (by decide),
   (c3_store_unique ⟨5, [], [(chars "epics://d:x", ⟨1, chars "epics://d:x"⟩)], []⟩
      ⟨9, chars "epics://d:x"⟩ [] ⟨9, []⟩).2.1 (by decide),
   (c3_store_unique ⟨5, [], [], [(chars "epics://d:x?configuration",
        ⟨2, chars "epics://d:x?configuration"⟩)]⟩ ⟨9, []⟩
      (chars "epics://d:x?configuration") ⟨9, chars "epics://c"⟩).2.2.1
      (by decide),
   (c3_store_unique ⟨5, [(chars "epics://d:", ⟨0, chars "epics://d:"⟩)], [], []⟩
      ⟨9, chars "epics://e:"⟩ [] ⟨9, []⟩).2.2.2.1 _ (by decide) (by decide),
   (c3_store_unique ⟨5, [], [(chars "epics://d:x", ⟨1, chars "epics://d:x"⟩)], []⟩
      ⟨9, chars "epics://e:x"⟩ [] ⟨9, []⟩).2.2.2.2.1 _ (by decide) (by decide),
   (c3_store_unique ⟨5, [], [], [(chars "epics://d:x?configuration",
        ⟨2, chars "epics://d:x?configuration"⟩)]⟩ ⟨9, []⟩
      (chars "epics://e:x?configuration")
      ⟨9, chars "epics://e:x?configuration"⟩).2.2.2.2.2 _ (by decide)
      (by decide)⟩

lemma rlookup_none_of_wf (reg : List (List Char × EpicsObj)) (n : List Char)
    (hreg : reg.all (fun p => beginsWith schemeHead p.1) = true)
    (hn : beginsWith schemeHead n = false) : rlookup reg n = none := by
  induction reg with
  | nil => rfl
  | cons p rest ih =>
    obtain ⟨k, v⟩ := p
    simp only [List.all_cons, Bool.and_eq_true] at hreg
    obtain ⟨hk, hrest⟩ := hreg
    unfold rlookup
    by_cases he : k = n
    · subst he; rw [hk] at hn; cases hn
    · rw [if_neg he]
      exact ih hrest

/-- Claim C4: when the corresponding validator's `getNames` returns
`None`, `getDevice` and `getAttribute` raise `TaurusException` and the
factory state (in particular every registry) is unchanged; `wellFormed`
restricts to the reachable registries, whose keys are full names and
hence carry the `epics://` marker an unparseable name lacks. -/
theorem c4_invalid_names_raise (s : EpicsFactoryState) (n : List Char)
    (hwf : wellFormed s = true) :
    (deviceGetNames n = none → getDevice s n = FactoryResult.taurusError s) ∧
    (attributeGetNames n = none →
      getAttribute s n = FactoryResult.taurusError s) := by
  unfold wellFormed at hwf
  rw [Bool.and_eq_true] at hwf
  obtain ⟨hdv, hat⟩ := hwf
  have hbase : deviceGetNames n = none ∨ attributeGetNames n = none →
      beginsWith schemeHead n = false := by
    intro hg
    by_cases hbb : beginsWith schemeHead n = true
    · rcases hg with hg | hg <;>
        simp [deviceGetNames, attributeGetNames, nameMatch_of_begins n hbb] at hg
    · simpa using hbb
  constructor
  · intro hg
    have hb := hbase (Or.inl hg)
    have hl := rlookup_none_of_wf s.epics_devs n hdv hb
    simp [getDevice, hl, hg]
  · intro hg
    have hb := hbase (Or.inr hg)
    have hl := rlookup_none_of_wf s.epics_attrs n hat hb
    simp [getAttribute, hl, hg]

/-- Witness for C4 on the empty factory state and the name `foo`. -/
theorem c4_invalid_names_raise_witness :
    getDevice ⟨0, [], [], []⟩ (chars "foo") =
      FactoryResult.taurusError ⟨0, [], [], []⟩ ∧
    getAttribute ⟨0, [], [], []⟩ (chars "foo") =
      FactoryResult.taurusError ⟨0, [], [], []⟩ :=
  ⟨(c4_invalid_names_raise ⟨0, [], [], []⟩ (chars "foo") (by decide)).1
      (by decide),
   (c4_invalid_names_raise ⟨0, [], [], []⟩ (chars "foo") (by decide)).2
      (by decide)⟩

/-- Claim C5: `EpicsAttribute.write` raises
`TaurusException('Epics writeable attributes not supported yet')` for
every value and every `with_read` flag, and the attribute state — in
particular the stored `self._value` — is exactly what it was before the
call. -/
theorem c5_write_raises (a : EpicsAttributeState) (value : Int)
    (with_read : Bool) :
    EpicsAttribute.write a value with_read =
      (some ⟨chars "Epics writeable attributes not supported yet"⟩, a) := rfl

/-- Claim C6: `EpicsAttribute.read` returns the stored `self._value` and
leaves the attribute state unchanged for either value of `cache`, so
`read(cache=True)` and `read(cache=False)` agree on the same state. -/
theorem c6_read_noop (a : EpicsAttributeState) (cache : Bool) :
    EpicsAttribute.read a cache = (a._value, a) ∧
      EpicsAttribute.read a true = EpicsAttribute.read a false :=
  ⟨rfl, rfl⟩

/-- Claim C7 (amended): registering an object that is already registered
under the same name is *not* a silent no-op: the `exists == dev` branch
of every `_store*` callback raises `DoubleRegistration` exactly like the
conflicting-object branch (only the debug message differs); the registry
is unchanged by the failed call. -/
theorem c7_same_object_rereg (s : EpicsFactoryState) (obj : EpicsObj) :
    (rlookup s.epics_devs obj.fullname = some obj →
      _storeDev s obj = StoreResult.doubleRegistration s) ∧
    (rlookup s.epics_attrs obj.fullname = some obj →
      _storeAttr s obj = StoreResult.doubleRegistration s) ∧
    (rlookup s.epics_configs obj.fullname = some obj →
      _storeConfig s obj.fullname obj = StoreResult.doubleRegistration s) :=
  ⟨fun h => storeDev_of_isSome s obj (by rw [h]; rfl),
   fun h => storeAttr_of_isSome s obj (by rw [h]; rfl),
   fun h => storeConfig_of_isSome s obj.fullname obj (by rw [h]; rfl)⟩

/-- Witness for C7 (amended): re-registering the device stored under
`epics://foo:` raises `DoubleRegistration` and leaves the state intact. -/
theorem c7_same_object_rereg_witness :
    _storeDev ⟨1, [(chars "epics://foo:", ⟨0, chars "epics://foo:"⟩)], [], []⟩
        ⟨0, chars "epics://foo:"⟩ =
      StoreResult.doubleRegistration
        ⟨1, [(chars "epics://foo:", ⟨0, chars "epics://foo:"⟩)], [], []⟩ :=
  (c7_same_object_rereg
      ⟨1, [(chars "epics://foo:", ⟨0, chars "epics://foo:"⟩)], [], []⟩
      ⟨0, chars "epics://foo:"⟩).1 (by decide)

/-- Counterexample to C7 as stated: the registry maps `epics://foo:` to
the very object being stored, yet `_storeDev` does not complete — it
raises `DoubleRegistration` (the call is not idempotent). -/
theorem c7_counterexample :
    rlookup [(chars "epics://foo:", ⟨0, chars "epics://foo:"⟩)]
        (chars "epics://foo:") = some ⟨0, chars "epics://foo:"⟩ ∧
    _storeAttr ⟨1, [], [(chars "epics://foo:", ⟨0, chars "epics://foo:"⟩)], []⟩
        ⟨0, chars "epics://foo:"⟩ =
      StoreResult.doubleRegistration
        ⟨1, [], [(chars "epics://foo:", ⟨0, chars "epics://foo:"⟩)], []⟩ := by
  decide

/-- Claim C8: at the failing input `epics://baz` — an attribute name the
grammar accepts whose device part is absent — `getDeviceName` returns
`epics://_DefaultEpicsDeviceNone`: the absent `base_sep` group is
rendered by `'%s'` as the text `None`, so the result neither ends with
the base separator `:` nor equals `epics://` + DEFAULT_DEVICE + `:` as
the claim (and the module's own device-name convention) requires. -/
theorem c8_getDeviceName_default :
    attributeIsValid (chars "epics://baz") = true ∧
    getDeviceName (chars "epics://baz") =
      some (chars "epics://_DefaultEpicsDeviceNone") ∧
    chars "epics://_DefaultEpicsDeviceNone" ≠
      schemeHead ++ DEFAULT_DEVICE ++ [':'] ∧
    (chars "epics://_DefaultEpicsDeviceNone").getLast? ≠ some ':' := by
  decide

/-- Claim C9: every name matched by the base pattern is claimed first by
the configuration branch of `findObjectClass`, because
`EpicsConfigurationNameValidator` inherits the unrestricted base
`isValid`; the device and attribute branches are unreachable for such
names. -/
theorem c9_findObjectClass_configuration (s : List Char)
    (h : baseIsValid s = true) :
    findObjectClass s = some EpicsClass.configuration := by
  simp [findObjectClass, h]

/-- Witness for C9: `epics://foo:bar` is an attribute-shaped name, yet
`findObjectClass` yields the configuration class. -/
theorem c9_findObjectClass_configuration_witness :
    findObjectClass (chars "epics://foo:bar") =
      some EpicsClass.configuration :=
  c9_findObjectClass_configuration (chars "epics://foo:bar") (by decide)

/-- `getDevice` never touches the attribute registry. -/
lemma getDevice_ok_epics_attrs (s : EpicsFactoryState) (n : List Char)
    (d : EpicsObj) (s2 : EpicsFactoryState)
    (h : getDevice s n = FactoryResult.ok d s2) :
    s2.epics_attrs = s.epics_attrs := by
  unfold getDevice at h
  cases h1 : rlookup s.epics_devs n with
  | some d0 =>
    simp only [h1] at h
    injection h with hd hs
    rw [← hs]
  | none =>
    simp only [h1] at h
    cases h2 : deviceGetNames n with
    | none => simp only [h2] at h; cases h
    | some names =>
      obtain ⟨f, nn, dn⟩ := names
      simp only [h2] at h
      cases h3 : rlookup s.epics_devs f with
      | some d0 =>
        simp only [h3] at h
        injection h with hd hs
        rw [← hs]
      | none =>
        simp only [h3, _storeDev] at h
        injection h with hd hs
        rw [← hs]

/-- Claim C10: carrying the registry state from the first call to the
second, repeated lookups are idempotent — when `getAttribute` yields an
object, calling it again with the same name on the resulting state
finds that very instance (stored in `epics_attrs` under its full name)
and leaves the state alone; likewise for `getDevice`. -/
theorem c10_factory_lookup_idempotent (s : EpicsFactoryState) (n : List Char)
    (a : EpicsObj) (s1 : EpicsFactoryState) (d : EpicsObj)
    (s2 : EpicsFactoryState) :
    (getAttribute s n = FactoryResult.ok a s1 →
      getAttribute s1 n = FactoryResult.ok a s1) ∧
    (getDevice s n = FactoryResult.ok d s2 →
      getDevice s2 n = FactoryResult.ok d s2) := by
  constructor
  · intro h
    unfold getAttribute at h
    cases h1 : rlookup s.epics_attrs n with
    | some a0 =>
      simp only [h1] at h
      injection h with ha hs
      subst ha; subst hs
      simp [getAttribute, h1]
    | none =>
      simp only [h1] at h
      cases h2 : attributeGetNames n with
      | none => simp only [h2] at h; cases h
      | some names =>
        obtain ⟨f, nn, an⟩ := names
        simp only [h2] at h
        cases h3 : rlookup s.epics_attrs f with
        | some a0 =>
          simp only [h3] at h
          injection h with ha hs
          subst ha; subst hs
          simp [getAttribute, h1, h2, h3]
        | none =>
          simp only [h3] at h
          cases h4 : getDeviceName n with
          | none => simp only [h4] at h; cases h
          | some devn =>
            simp only [h4] at h
            cases h5 : getDevice s devn with
            | taurusError s3 => simp only [h5] at h; cases h
            | doubleRegError s3 => simp only [h5] at h; cases h
            | ok dv s3 =>
              have hpres := getDevice_ok_epics_attrs s devn dv s3 h5
              simp only [h5, _storeAttr, hpres, h3] at h
              injection h with ha hs
              subst ha; subst hs
              by_cases hnf : f = n
              · subst hnf
                simp [getAttribute, rlookup]
              · simp only [getAttribute, rlookup, hpres]
                rw [if_neg hnf]
                simp [h1, h2, hnf]
  · intro h
    unfold getDevice at h
    cases h1 : rlookup s.epics_devs n with
    | some d0 =>
      simp only [h1] at h
      injection h with hd hs
      subst hd; subst hs
      simp [getDevice, h1]
    | none =>
      simp only [h1] at h
      cases h2 : deviceGetNames n with
      | none => simp only [h2] at h; cases h
      | some names =>
        obtain ⟨f, nn, dn⟩ := names
        simp only [h2] at h
        cases h3 : rlookup s.epics_devs f with
        | some d0 =>
          simp only [h3] at h
          injection h with hd hs
          subst hd; subst hs
          simp [getDevice, h1, h2, h3]
        | none =>
          simp only [h3, _storeDev] at h
          injection h with hd hs
          subst hd; subst hs
          by_cases hnf : f = n
          · subst hnf
            simp [getDevice, rlookup]
          · simp only [getDevice, rlookup]
            rw [if_neg hnf]
            simp [h1, h2, hnf]

/-- Witness for C10: on the empty factory state, a first `getAttribute`
(`getDevice`) call on `epics://foo:bar:baz` (`epics://dev:`) creates and
stores the proxy, and the second call returns that same instance with
the state untouched. -/
theorem c10_factory_lookup_idempotent_witness :
    getAttribute
        ⟨2, [(chars "epics://foo:bar:", ⟨0, chars "epics://foo:bar:"⟩)],
            [(chars "epics://foo:bar:baz", ⟨1, chars "epics://foo:bar:baz"⟩)],
            []⟩ (chars "epics://foo:bar:baz") =
      FactoryResult.ok ⟨1, chars "epics://foo:bar:baz"⟩
        ⟨2, [(chars "epics://foo:bar:", ⟨0, chars "epics://foo:bar:"⟩)],
            [(chars "epics://foo:bar:baz", ⟨1, chars "epics://foo:bar:baz"⟩)],
            []⟩ ∧
    getDevice ⟨1, [(chars "epics://dev:", ⟨0, chars "epics://dev:"⟩)], [], []⟩
        (chars "epics://dev:") =
      FactoryResult.ok ⟨0, chars "epics://dev:"⟩
        ⟨1, [(chars "epics://dev:", ⟨0, chars "epics://dev:"⟩)], [], []⟩ :=
  ⟨(c10_factory_lookup_idempotent ⟨0, [], [], []⟩ (chars "epics://foo:bar:baz")
      ⟨1, chars "epics://foo:bar:baz"⟩
      ⟨2, [(chars "epics://foo:bar:", ⟨0, chars "epics://foo:bar:"⟩)],
          [(chars "epics://foo:bar:baz", ⟨1, chars "epics://foo:bar:baz"⟩)],
          []⟩ ⟨0, []⟩ ⟨0, [], [], []⟩).1 (by decide),
   (c10_factory_lookup_idempotent ⟨0, [], [], []⟩ (chars "epics://dev:")
      ⟨0, []⟩ ⟨0, [], [], []⟩ ⟨0, chars "epics://dev:"⟩
      ⟨1, [(chars "epics://dev:", ⟨0, chars "epics://dev:"⟩)], [], []⟩).2
      (by decide)⟩
